import Mathlib

/-!
Verification of the ClarityAI adaptive-transition core (src/unnamed/part_003,
with src/unnamed/part_004 a near-identical revision): the usage tracker
(`learnUserBehavior`), the transition predictor (`predictNextFeature`), the
intent classifier (`classify` portion of `analyzeIntentAndSuggestTransition`),
and the transition coordinator (`transitionToFeature`, `getUICommands`).

Modelling conventions:
- JavaScript numbers are modelled as exact rationals (`ℚ`); timestamps
  (`Date.now()`) are passed in as explicit `now : ℕ` parameters.
- JavaScript `Map` objects and dynamic object keys are modelled as
  insertion-ordered association lists (`List (String × _)`), with `Map.set`
  / property assignment updating in place when the key exists and appending
  otherwise, exactly as in the runtime.
- Handlers that mutate `ctx.memory` are modelled as functions from the
  memory/state value to (returned result, updated value).
-/

namespace ClarityAI

/-- ASCII lowercasing of one character; this is how JavaScript
`String.prototype.toLowerCase` acts on the ASCII range (every keyword and
message considered here is ASCII). -/
def lowerChar (c : Char) : Char :=
  if 'A' ≤ c ∧ c ≤ 'Z' then Char.ofNat (c.toNat + 32) else c

/-- JavaScript `String.prototype.toLowerCase`, on ASCII strings. -/
def lowerStr (s : String) : String := String.mk (s.data.map lowerChar)

/-- Prefix test on character lists. -/
def charsPrefixOf : List Char → List Char → Bool
  | [], _ => true
  | _ :: _, [] => false
  | a :: as, b :: bs => a == b && charsPrefixOf as bs

/-- Contiguous-substring test on character lists. -/
def charsInfixOf (needle hay : List Char) : Bool :=
  match hay with
  | [] => needle.isEmpty
  | _ :: rest => charsPrefixOf needle hay || charsInfixOf needle rest

/-- JavaScript `haystack.includes(needle)`: substring containment. -/
def jsIncludes (haystack needle : String) : Bool :=
  charsInfixOf needle.data haystack.data

/-- JavaScript `Math.round` (half rounds up; all inputs here are ≥ 0). -/
def jsRound (q : ℚ) : ℤ := ⌊q + 1 / 2⌋

/-- First-match lookup in an insertion-ordered association list (JavaScript
`Map.get` / object property read). -/
def alistLookup {α : Type} (l : List (String × α)) (k : String) : Option α :=
  match l with
  | [] => none
  | (k₁, v) :: rest => if k₁ = k then some v else alistLookup rest k

/-- `Map.set` / object property write: update in place when the key exists,
append at the end otherwise. -/
def alistSet {α : Type} (l : List (String × α)) (k : String) (v : α) :
    List (String × α) :=
  match l with
  | [] => [(k, v)]
  | (k₁, v₁) :: rest =>
    if k₁ = k then (k₁, v) :: rest else (k₁, v₁) :: alistSet rest k v

/-- JavaScript `x || d` for a possibly-missing numeric property: both
`undefined` and `0` are falsy, so a stored `0` also yields the default. -/
def jsOrDefault (x : Option ℚ) (d : ℚ) : ℚ :=
  match x with
  | none => d
  | some v => if v = 0 then d else v

/-- `String.prototype.split("->")`, specialised to the separator used by
`predictNextFeature`'s transition keys: left-to-right, non-overlapping. -/
def splitArrowAux : List Char → List Char → List String
  | [], cur => [String.mk cur.reverse]
  | '-' :: '>' :: rest, cur => String.mk cur.reverse :: splitArrowAux rest []
  | c :: rest, cur => splitArrowAux rest (c :: cur)

/-- JavaScript `key.split("->")`. -/
def splitArrow (s : String) : List String := splitArrowAux s.data []

/-- The three UI modes (`z.enum(["chat", "timeline", "storyboard"])`). -/
inductive Feature
  | chat
  | timeline
  | storyboard
deriving DecidableEq

/-- The string name of a mode. -/
def featureName : Feature → String
  | .chat => "chat"
  | .timeline => "timeline"
  | .storyboard => "storyboard"

/-- The optional `context` object accepted by `learnUserBehavior`'s schema. -/
structure UsageContext where
  timeOfDay : Option ℚ
  sessionLength : Option ℚ
  previousMode : Option String
deriving DecidableEq

/-- One entry of `behaviorPatterns.featureTransitionPatterns`, as pushed by
`learnUserBehavior` (`from`/`to` are arbitrary strings there, since the
action's schema accepts `z.string()` features). -/
structure TransitionEvent where
  «from» : String
  «to» : String
  timestamp : ℕ
  duration : ℚ
  confidence : ℚ
  context : UsageContext
deriving DecidableEq

/-- The `preferences` object of the user-profile memory.  The
`…UsagePercent` fields are accessed through computed keys
`feature + "UsagePercent"`, so they (and any dynamically created ones) live
in the `usage` association list. -/
structure Preferences where
  primaryWorkflow : String
  usage : List (String × ℚ)
  lastActiveFeature : String
  sessionCount : ℕ
  averageSessionLength : ℚ
deriving DecidableEq

/-- The user-profile context memory (`userProfileContext.create`); fields of
`behaviorPatterns` and `currentSession` that no handler ever reads are
omitted. -/
structure UserMemory where
  preferences : Preferences
  featureTransitionPatterns : List TransitionEvent
  currentFeature : String
deriving DecidableEq

/-- `userProfileContext.create()`: the 33/33/34 default split. -/
def initialUserMemory : UserMemory :=
  { preferences :=
      { primaryWorkflow := "balanced"
        usage := [("timelineUsagePercent", 33), ("storyboardUsagePercent", 33),
                  ("chatUsagePercent", 34)]
        lastActiveFeature := "chat"
        sessionCount := 0
        averageSessionLength := 0 }
    featureTransitionPatterns := []
    currentFeature := "chat" }

/-- The flattened `{success, learningData}` object returned by
`learnUserBehavior`. -/
structure LearnResult where
  success : Bool
  updatedPatterns : ℕ
  newUsagePercent : ℤ
  sessionCount : ℕ
deriving DecidableEq

/-- The `learnUserBehavior` action handler (part_003 lines 412-451). -/
def learnUserBehavior (action feature : String) (duration : ℚ)
    (uctx : UsageContext) (now : ℕ) (mem : UserMemory) :
    LearnResult × UserMemory :=
  let featureKey := feature ++ "UsagePercent"
  let currentUsage := jsOrDefault (alistLookup mem.preferences.usage featureKey) 33
  let sessionCount := mem.preferences.sessionCount + 1
  let durationWeight := min (duration / 60000) 1
  let newUsage := currentUsage * 0.9 + durationWeight * 10
  let usage1 := alistSet mem.preferences.usage featureKey (min newUsage 100)
  let patterns1 := mem.featureTransitionPatterns ++
    [⟨mem.currentFeature, feature, now, duration, durationWeight, uctx⟩]
  let mem1 : UserMemory :=
    { preferences := { mem.preferences with usage := usage1, sessionCount := sessionCount }
      featureTransitionPatterns := patterns1
      currentFeature := feature }
  (⟨true, patterns1.length, jsRound newUsage, sessionCount⟩, mem1)

/-- One value of the `transitionMap` built by `predictNextFeature`. -/
structure TransitionAcc where
  count : ℕ
  avgDuration : ℚ
deriving DecidableEq

/-- One iteration of `recentPatterns.forEach`: insert `{count: 0,
avgDuration: 0}` when the key is new, then `count++` and
`avgDuration = (avgDuration + duration) / 2`. -/
def mapUpdate (m : List (String × TransitionAcc)) (key : String) (d : ℚ) :
    List (String × TransitionAcc) :=
  match m with
  | [] => [(key, ⟨1, (0 + d) / 2⟩)]
  | (k, acc) :: rest =>
    if k = key then (k, ⟨acc.count + 1, (acc.avgDuration + d) / 2⟩) :: rest
    else (k, acc) :: mapUpdate rest key d

/-- The grouping pass of `predictNextFeature`, keyed by
`pattern.from + "->" + pattern.to`. -/
def buildTransitionMap (recentPatterns : List TransitionEvent) :
    List (String × TransitionAcc) :=
  recentPatterns.foldl (fun m p => mapUpdate m (p.«from» ++ "->" ++ p.«to») p.duration) []

/-- The `bestPrediction` record of `predictNextFeature`. -/
structure Prediction where
  feature : String
  confidence : ℚ
  reasoning : String
deriving DecidableEq

/-- One iteration of `transitionMap.forEach` in `predictNextFeature`:
split the key back into `[from, to]`, score the pair when `from` equals the
current mode, and replace `bestPrediction` on a strictly higher score. -/
def predictStep (recentCount : ℕ) (timeSpent : ℚ) (currentMode : String)
    (best : Prediction) (kv : String × TransitionAcc) : Prediction :=
  let parts := splitArrow kv.1
  let f := parts.headD ""
  let t := (parts.drop 1).headD ""
  if f = currentMode then
    let confidence := ((kv.2.count : ℚ) / (recentCount : ℚ)) *
      (if timeSpent > kv.2.avgDuration then 1.2 else 0.8)
    if confidence > best.confidence then
      ⟨t, min confidence 1,
        toString kv.2.count ++ " similar transitions, avg duration: " ++
          toString (jsRound (kv.2.avgDuration / 1000)) ++ "s"⟩
    else best
  else best

/-- The `predictNextFeature` action handler (part_003 lines 466-518):
window to the last 20 patterns, group, then scan the map. -/
def predictNextFeature (currentMode : String) (timeSpentInCurrentFeature : ℚ)
    (patterns : List TransitionEvent) : Prediction :=
  let recentPatterns := patterns.drop (patterns.length - 20)
  let transitionMap := buildTransitionMap recentPatterns
  transitionMap.foldl (predictStep recentPatterns.length timeSpentInCurrentFeature currentMode)
    ⟨"chat", 0, "default"⟩

/-- The timeline keyword list of `analyzeIntentAndSuggestTransition`. -/
def timelineKeywords : List String :=
  ["timeline", "edit", "cut", "trim", "split", "clips", "precision",
   "frame", "second", "duration", "sync", "audio", "video", "sequence",
   "edit video", "cut clip", "trim video", "precise editing"]

/-- The storyboard keyword list of `analyzeIntentAndSuggestTransition`. -/
def storyboardKeywords : List String :=
  ["storyboard", "scene", "story", "flow", "sequence", "plan",
   "narrative", "shots", "angle", "composition", "story flow",
   "plan story", "organize scenes", "story planning"]

/-- The `suggestion` / `confidence` / `reason` triple computed by the
classification portion of `analyzeIntentAndSuggestTransition`. -/
structure ClassificationResult where
  suggestion : Option String
  confidence : ℚ
  reason : String
deriving DecidableEq

/-- The keyword-scoring stage of `analyzeIntentAndSuggestTransition`
(part_003 lines 546-569), on the already-lowercased message: timeline
matches first, then storyboard replaces the tentative suggestion exactly
when its confidence strictly exceeds the current `confidence` variable. -/
def keywordClassify (message currentMode : String) : ClassificationResult :=
  let timelineMatches := timelineKeywords.filter (fun k => jsIncludes message k)
  let r1 : ClassificationResult :=
    if 0 < timelineMatches.length then
      let conf := min ((timelineMatches.length : ℚ) * 0.3) 0.9
      if currentMode ≠ "timeline" then
        ⟨some "timeline", conf,
          "Detected timeline editing intent from keywords: " ++
            String.intercalate ", " (timelineMatches.take 3)⟩
      else ⟨none, conf, ""⟩
    else ⟨none, 0, ""⟩
  let storyboardMatches := storyboardKeywords.filter (fun k => jsIncludes message k)
  if 0 < storyboardMatches.length then
    let sbConf := min ((storyboardMatches.length : ℚ) * 0.3) 0.9
    if sbConf > r1.confidence ∧ currentMode ≠ "storyboard" then
      ⟨some "storyboard", sbConf,
        "Detected storyboard planning intent from keywords: " ++
          String.intercalate ", " (storyboardMatches.take 3)⟩
    else r1
  else r1

/-- The exact-phrase override stage of `analyzeIntentAndSuggestTransition`
(part_003 lines 572-580), applied after keyword scoring: an `if`/`else if`
chain, so the timeline phrases are checked first. -/
def applyOverrides (message : String) (prior : ClassificationResult) :
    ClassificationResult :=
  if jsIncludes message "switch to timeline" || jsIncludes message "timeline editor" then
    ⟨some "timeline", 0.95, "Direct request for timeline editor"⟩
  else if jsIncludes message "switch to storyboard" || jsIncludes message "storyboard editor" then
    ⟨some "storyboard", 0.95, "Direct request for storyboard editor"⟩
  else prior

/-- The classification computed by `analyzeIntentAndSuggestTransition`
(part_003 lines 529-580): lowercase the message, score keywords, apply the
phrase overrides.  (The handler then triggers `transitionToFeature` when a
suggestion exists with confidence above 0.4; that dispatch is the
coordinator's concern, not the classifier's result.) -/
def classify (userMessage currentMode : String) : ClassificationResult :=
  let message := lowerStr userMessage
  applyOverrides message (keywordClassify message currentMode)

/-- The module-level `currentUIState` record. -/
structure UIState where
  mode : Feature
  prediction : Option String
  confidence : ℚ
  lastTransition : ℕ
deriving DecidableEq

/-- One value of the `uiCommandStore` map. -/
structure UICommand where
  type : String
  targetFeature : Feature
  reason : String
  confidence : ℚ
  timestamp : ℕ
deriving DecidableEq

/-- One entry pushed onto `ctx.memory.recentActions`. -/
structure RecentAction where
  type : String
  «from» : Feature
  «to» : Feature
  reason : String
  timestamp : ℕ
deriving DecidableEq

/-- The interface-context memory (`interfaceContext.create`); the static
`uiState` sub-object is never read by the transition handler and is
omitted. -/
structure InterfaceMemory where
  currentView : Feature
  transitionState : String
  predictedNextFeature : Option String
  confidence : ℚ
  recentActions : List RecentAction
deriving DecidableEq

/-- The mutable module state touched by the transition coordinator:
`currentUIState`, the `uiCommandStore` map, and the interface-context
memory. -/
structure SystemState where
  currentUIState : UIState
  uiCommandStore : List (String × UICommand)
  interfaceMem : InterfaceMemory
deriving DecidableEq

/-- The initial module state: mode `chat`, empty command store, fresh
interface memory. -/
def initialSystemState : SystemState :=
  { currentUIState := ⟨Feature.chat, none, 0, 0⟩
    uiCommandStore := []
    interfaceMem := ⟨Feature.chat, "stable", none, 0, []⟩ }

/-- The flattened result object of `transitionToFeature`. -/
structure TransitionResult where
  success : Bool
  commandId : String
  message : String
deriving DecidableEq

/-- The `transitionToFeature` action handler (part_003 lines 350-395).
Every `Date.now()` in the handler is modelled by the single `now`
parameter. -/
def transitionToFeature (targetFeature : Feature) (reason : String)
    (confidence : ℚ) (now : ℕ) (s : SystemState) :
    TransitionResult × SystemState :=
  let ui1 : UIState := ⟨targetFeature, some (featureName targetFeature), confidence, now⟩
  let commandId := "transition-" ++ toString now
  let store1 := alistSet s.uiCommandStore commandId
    ⟨"transition", targetFeature, reason, confidence, now⟩
  let mem1 : InterfaceMemory :=
    { s.interfaceMem with
        currentView := targetFeature
        transitionState := "transitioning"
        predictedNextFeature := none
        confidence := confidence }
  -- the audit entry is pushed AFTER `currentView` has been overwritten with
  -- the target, and its `from` field reads that overwritten `currentView`
  let mem2 : InterfaceMemory :=
    { mem1 with recentActions := mem1.recentActions ++
        [⟨"transition", mem1.currentView, targetFeature, reason, now⟩] }
  (⟨true, commandId, "Switching to " ++ featureName targetFeature ++ " mode. " ++ reason⟩,
   { currentUIState := ui1, uiCommandStore := store1, interfaceMem := mem2 })

/-- The exported `getUICommands` (part_003 lines 646-650): read every value
of the command store, then clear it. -/
def getUICommands (s : SystemState) : List UICommand × SystemState :=
  (s.uiCommandStore.map Prod.snd, { s with uiCommandStore := [] })

/-- The raw score `(count / recentCount) * (timeInMode > avgDuration ? 1.2
: 0.8)` computed by `predictNextFeature` for one grouped pair. -/
def entryScore (recentCount : ℕ) (timeSpent : ℚ) (acc : TransitionAcc) : ℚ :=
  ((acc.count : ℚ) / (recentCount : ℚ)) * (if timeSpent > acc.avgDuration then 1.2 else 0.8)

/-- The `bestPrediction` record built from one grouped pair when it wins:
target feature from the split key, confidence clipped at 1, and the
reasoning string. -/
def entryPrediction (recentCount : ℕ) (timeSpent : ℚ) (kv : String × TransitionAcc) :
    Prediction :=
  ⟨((splitArrow kv.1).drop 1).headD "",
   min (entryScore recentCount timeSpent kv.2) 1,
   toString kv.2.count ++ " similar transitions, avg duration: " ++
     toString (jsRound (kv.2.avgDuration / 1000)) ++ "s"⟩

/-- `predictStep` restricted to entries whose `from` part already matches
the current mode: replace `bestPrediction` exactly on a strictly greater
raw score. -/
def pickStep (recentCount : ℕ) (timeSpent : ℚ) (best : Prediction)
    (kv : String × TransitionAcc) : Prediction :=
  if entryScore recentCount timeSpent kv.2 > best.confidence then
    entryPrediction recentCount timeSpent kv
  else best

/-- The grouped-map entries whose `from` part equals the current mode — the
candidates actually scored by `predictNextFeature`. -/
def matchingEntries (currentMode : String) (m : List (String × TransitionAcc)) :
    List (String × TransitionAcc) :=
  m.filter (fun kv => decide ((splitArrow kv.1).headD "" = currentMode))

/-- Sum of the `count` fields of a grouped map. -/
def totalCount (m : List (String × TransitionAcc)) : ℕ :=
  (m.map (fun kv => kv.2.count)).sum

/-- Number of timeline-keyword matches in an (already-lowercased) message. -/
def timelineMatchCount (messageL : String) : ℕ :=
  (timelineKeywords.filter (fun k => jsIncludes messageL k)).length

/-- Number of storyboard-keyword matches in an (already-lowercased)
message. -/
def storyboardMatchCount (messageL : String) : ℕ :=
  (storyboardKeywords.filter (fun k => jsIncludes messageL k)).length

/-- Whether any of the four exact override phrases occurs in the
(already-lowercased) message. -/
def hasOverridePhrase (messageL : String) : Bool :=
  jsIncludes messageL "switch to timeline" || jsIncludes messageL "timeline editor" ||
    jsIncludes messageL "switch to storyboard" || jsIncludes messageL "storyboard editor"

/-- One call to the usage recorder, for stating properties of call
sequences. -/
structure LearnCall where
  action : String
  feature : String
  durationMs : ℚ
  uctx : UsageContext
  now : ℕ

/-- Run a finite sequence of `learnUserBehavior` calls against a profile
memory. -/
def applyLearnCalls : List LearnCall → UserMemory → UserMemory
  | [], mem => mem
  | c :: rest, mem =>
    applyLearnCalls rest (learnUserBehavior c.action c.feature c.durationMs c.uctx c.now mem).2

/-- Every stored usage percentage lies in [0, 100]. -/
abbrev usageInBounds (mem : UserMemory) : Prop :=
  ∀ p ∈ mem.preferences.usage, 0 ≤ p.2 ∧ p.2 ≤ 100

/-! ## Helper lemmas on association lists -/

theorem alistLookup_set {α : Type} (l : List (String × α)) (k : String) (v : α) :
    alistLookup (alistSet l k v) k = some v := by
  induction l with
  | nil => simp [alistSet, alistLookup]
  | cons p rest ih =>
    obtain ⟨k₁, v₁⟩ := p
    by_cases h : k₁ = k
    · simp [alistSet, alistLookup, h]
    · simp [alistSet, alistLookup, h, ih]

theorem mem_alistSet {α : Type} (l : List (String × α)) (k : String) (v : α)
    (p : String × α) (hp : p ∈ alistSet l k v) : p = (k, v) ∨ p ∈ l := by
  induction l with
  | nil => exact Or.inl (by simpa [alistSet] using hp)
  | cons q rest ih =>
    obtain ⟨k₁, v₁⟩ := q
    by_cases h : k₁ = k
    · simp only [alistSet, if_pos h] at hp
      rcases List.mem_cons.mp hp with hp | hp
      · exact Or.inl (by rw [hp, h])
      · exact Or.inr (List.mem_cons_of_mem _ hp)
    · simp only [alistSet, if_neg h] at hp
      rcases List.mem_cons.mp hp with hp | hp
      · exact Or.inr (by rw [hp]; exact List.mem_cons_self _ _)
      · rcases ih hp with hp₁ | hp₁
        · exact Or.inl hp₁
        · exact Or.inr (List.mem_cons_of_mem _ hp₁)

theorem alistLookup_mem {α : Type} (l : List (String × α)) (k : String) (v : α)
    (h : alistLookup l k = some v) : (k, v) ∈ l := by
  induction l with
  | nil => simp [alistLookup] at h
  | cons p rest ih =>
    obtain ⟨k₁, v₁⟩ := p
    by_cases hk : k₁ = k
    · simp only [alistLookup, if_pos hk] at h
      rw [← hk, Option.some_inj.mp h]
      exact List.mem_cons_self _ _
    · simp only [alistLookup, if_neg hk] at h
      exact List.mem_cons_of_mem _ (ih h)

/-! ## C6, C9, C10 -/

/-- C6: for every current mode and every time-in-mode, `predictNextFeature`
on an empty transition log returns exactly
`{feature: "chat", confidence: 0, reasoning: "default"}` (the handler is a
total function of its inputs, so it cannot throw). -/
theorem predictNextFeature_empty_default (currentMode : String) (timeInModeMs : ℚ) :
    predictNextFeature currentMode timeInModeMs [] = ⟨"chat", 0, "default"⟩ := rfl

/-- C9: `getUICommands` returns every currently queued command, clears the
queue in the same operation, and a second call with nothing enqueued in
between returns the empty sequence. -/
theorem getUICommands_drains (s : SystemState) :
    (getUICommands s).1 = s.uiCommandStore.map Prod.snd ∧
    (getUICommands s).2.uiCommandStore = [] ∧
    (getUICommands (getUICommands s).2).1 = [] :=
  ⟨rfl, rfl, rfl⟩

/-- C10: every invocation of `transitionToFeature` appends an audit entry to
`recentActions` whose `from` field equals the TARGET feature (as does its
`to` field), independently of the pre-transition `currentView`: the handler
overwrites `currentView` with the target before reading it back for the
audit record, so the pre-transition mode is never recorded there. -/
theorem transitionToFeature_audit_from_is_target (s : SystemState)
    (target : Feature) (reason : String) (confidence : ℚ) (now : ℕ) :
    ((transitionToFeature target reason confidence now s).2.interfaceMem.recentActions).getLast?
      = some ⟨"transition", target, target, reason, now⟩ := by
  simp [transitionToFeature]

/-! ## C3: no self-transition guard exists -/

/-- C3 counterexample: invoking `transitionToFeature` with the target equal
to the current mode (`chat` from the initial state) still enqueues a
PendingCommand, still records a transition event in `recentActions`, and
still mutates the UI state (`lastTransition`). -/
theorem transitionToFeature_self_transition_cex :
    initialSystemState.currentUIState.mode = Feature.chat ∧
    initialSystemState.uiCommandStore.length = 0 ∧
    initialSystemState.interfaceMem.recentActions.length = 0 ∧
    initialSystemState.currentUIState.lastTransition = 0 ∧
    (transitionToFeature Feature.chat "already here" 0.8 5 initialSystemState).2.uiCommandStore.length = 1 ∧
    (transitionToFeature Feature.chat "already here" 0.8 5 initialSystemState).2.interfaceMem.recentActions.length = 1 ∧
    (transitionToFeature Feature.chat "already here" 0.8 5 initialSystemState).2.currentUIState.lastTransition = 5 :=
  ⟨rfl, rfl, rfl, rfl, rfl, rfl, rfl⟩

/-- C3 amended: `transitionToFeature` has no self-transition guard.  Even
when the target equals the current mode it stores the PendingCommand under
the fresh command id, appends a transition event to `recentActions`, and
rewrites the UI state. -/
theorem transitionToFeature_self_still_fires (s : SystemState) (target : Feature)
    (reason : String) (confidence : ℚ) (now : ℕ)
    (hself : target = s.currentUIState.mode) :
    alistLookup (transitionToFeature target reason confidence now s).2.uiCommandStore
        ("transition-" ++ toString now) = some ⟨"transition", target, reason, confidence, now⟩ ∧
    (transitionToFeature target reason confidence now s).2.interfaceMem.recentActions.length
      = s.interfaceMem.recentActions.length + 1 ∧
    (transitionToFeature target reason confidence now s).2.currentUIState
      = ⟨target, some (featureName target), confidence, now⟩ := by
  refine ⟨?_, ?_, rfl⟩
  · simp [transitionToFeature, alistLookup_set]
  · simp [transitionToFeature]

/-- Witness for the amended C3 theorem at the initial state with target
`chat` (the current mode). -/
theorem transitionToFeature_self_still_fires_witness :
    Feature.chat = initialSystemState.currentUIState.mode ∧
    (alistLookup (transitionToFeature Feature.chat "already here" 0.8 5 initialSystemState).2.uiCommandStore
        ("transition-" ++ toString 5) = some ⟨"transition", Feature.chat, "already here", 0.8, 5⟩ ∧
     (transitionToFeature Feature.chat "already here" 0.8 5 initialSystemState).2.interfaceMem.recentActions.length
       = initialSystemState.interfaceMem.recentActions.length + 1 ∧
     (transitionToFeature Feature.chat "already here" 0.8 5 initialSystemState).2.currentUIState
       = ⟨Feature.chat, some (featureName Feature.chat), 0.8, 5⟩) :=
  ⟨rfl, transitionToFeature_self_still_fires initialSystemState Feature.chat "already here" 0.8 5 rfl⟩

/-! ## C2: the EMA update reads the old value with a falsy default -/

/-- C2 counterexample: with `usagePercent["chat"] = 0` stored and
`durationMs = 0`, the claimed update `min(old * 0.9 + min(d/60000,1)*10, 100)`
would give `0`, but the handler reads the old value with `|| 33` (and `0` is
falsy in JavaScript), producing `29.7`. -/
theorem learnUserBehavior_zero_usage_cex :
    alistLookup (learnUserBehavior "edit" "chat" 0 ⟨none, none, none⟩ 0
        { preferences :=
            { primaryWorkflow := "balanced"
              usage := [("chatUsagePercent", 0)]
              lastActiveFeature := "chat"
              sessionCount := 0
              averageSessionLength := 0 }
          featureTransitionPatterns := []
          currentFeature := "chat" }).2.preferences.usage "chatUsagePercent"
      ≠ some (min ((0 : ℚ) * 0.9 + min ((0 : ℚ) / 60000) 1 * 10) 100) := by
  simp [learnUserBehavior, alistSet, alistLookup, jsOrDefault]
  norm_num

/-- C2 amended: the usage-recording update is
`usagePercent[feature] = min(u * 0.9 + min(durationMs/60000, 1) * 10, 100)`
where `u` is the stored value read through JavaScript `|| 33` — i.e. the
old value when it is present and nonzero, and the default `33` when the key
is missing or holds `0`; `sessionCount` is incremented by exactly one. -/
theorem learnUserBehavior_ema_update (mem : UserMemory) (action feature : String)
    (durationMs : ℚ) (uctx : UsageContext) (now : ℕ) (hd : 0 ≤ durationMs) :
    alistLookup (learnUserBehavior action feature durationMs uctx now mem).2.preferences.usage
        (feature ++ "UsagePercent")
      = some (min (jsOrDefault (alistLookup mem.preferences.usage (feature ++ "UsagePercent")) 33 * 0.9
          + min (durationMs / 60000) 1 * 10) 100) ∧
    (learnUserBehavior action feature durationMs uctx now mem).2.preferences.sessionCount
      = mem.preferences.sessionCount + 1 := by
  refine ⟨?_, rfl⟩
  simp [learnUserBehavior, alistLookup_set]

/-- Witness for the amended C2 theorem: a concrete call on the initial
profile. -/
theorem learnUserBehavior_ema_update_witness :
    (0 : ℚ) ≤ 5000 ∧
    (alistLookup (learnUserBehavior "edit" "chat" 5000 ⟨none, none, none⟩ 7 initialUserMemory).2.preferences.usage
        ("chat" ++ "UsagePercent")
      = some (min (jsOrDefault (alistLookup initialUserMemory.preferences.usage ("chat" ++ "UsagePercent")) 33 * 0.9
          + min ((5000 : ℚ) / 60000) 1 * 10) 100) ∧
     (learnUserBehavior "edit" "chat" 5000 ⟨none, none, none⟩ 7 initialUserMemory).2.preferences.sessionCount
       = initialUserMemory.preferences.sessionCount + 1) :=
  ⟨by norm_num, learnUserBehavior_ema_update initialUserMemory "edit" "chat" 5000 ⟨none, none, none⟩ 7 (by norm_num)⟩

/-! ## C8: unknown feature identifiers are accepted, not rejected -/

/-- C8 counterexample: calling the usage recorder with the unknown feature
`"video"` is not rejected — the handler reports success and silently creates
the new key `"videoUsagePercent"` (defaulting the missing old value to 33:
`33 * 0.9 + min(30000/60000,1) * 10 = 34.7`). -/
theorem learnUserBehavior_unknown_feature_cex :
    alistLookup initialUserMemory.preferences.usage "videoUsagePercent" = none ∧
    (learnUserBehavior "watch" "video" 30000 ⟨none, none, none⟩ 0 initialUserMemory).1.success = true ∧
    alistLookup (learnUserBehavior "watch" "video" 30000 ⟨none, none, none⟩ 0
        initialUserMemory).2.preferences.usage "videoUsagePercent" = some (347 / 10) := by
  refine ⟨rfl, rfl, ?_⟩
  simp [learnUserBehavior, initialUserMemory, alistSet, alistLookup, jsOrDefault]
  norm_num

/-- C8 amended: for every feature identifier outside
`{chat, timeline, storyboard}` the usage recorder does NOT reject the call:
it reports success, and writes the key `feature ++ "UsagePercent"` (created
with the falsy default 33 when absent) exactly as for a known feature. -/
theorem learnUserBehavior_accepts_unknown_feature (mem : UserMemory)
    (action feature : String) (durationMs : ℚ) (uctx : UsageContext) (now : ℕ)
    (hunknown : feature ∉ (["chat", "timeline", "storyboard"] : List String)) :
    (learnUserBehavior action feature durationMs uctx now mem).1.success = true ∧
    alistLookup (learnUserBehavior action feature durationMs uctx now mem).2.preferences.usage
        (feature ++ "UsagePercent")
      = some (min (jsOrDefault (alistLookup mem.preferences.usage (feature ++ "UsagePercent")) 33 * 0.9
          + min (durationMs / 60000) 1 * 10) 100) := by
  refine ⟨rfl, ?_⟩
  simp [learnUserBehavior, alistLookup_set]

/-- Witness for the amended C8 theorem at the unknown feature `"video"`. -/
theorem learnUserBehavior_accepts_unknown_feature_witness :
    "video" ∉ (["chat", "timeline", "storyboard"] : List String) ∧
    ((learnUserBehavior "watch" "video" 30000 ⟨none, none, none⟩ 0 initialUserMemory).1.success = true ∧
     alistLookup (learnUserBehavior "watch" "video" 30000 ⟨none, none, none⟩ 0 initialUserMemory).2.preferences.usage
        ("video" ++ "UsagePercent")
      = some (min (jsOrDefault (alistLookup initialUserMemory.preferences.usage ("video" ++ "UsagePercent")) 33 * 0.9
          + min ((30000 : ℚ) / 60000) 1 * 10) 100)) :=
  ⟨by decide, learnUserBehavior_accepts_unknown_feature initialUserMemory "watch" "video" 30000
    ⟨none, none, none⟩ 0 (by decide)⟩

/-! ## C5: the override phrases, and their `else if` ordering -/

/-- C5 counterexample: a message whose lowercased text contains the exact
substring "switch to storyboard" but which classifies as timeline (with the
timeline reason), because the timeline override is checked first in an
`if`/`else if` chain. -/
theorem classify_override_conflict_cex :
    jsIncludes (lowerStr "switch to timeline or rather switch to storyboard") "switch to storyboard" = true ∧
    (classify "switch to timeline or rather switch to storyboard" "chat").suggestion = some "timeline" ∧
    (classify "switch to timeline or rather switch to storyboard" "chat").reason
      = "Direct request for timeline editor" :=
  ⟨by decide, rfl, rfl⟩

/-- C5 amended: a message containing "switch to timeline" or
"timeline editor" always classifies as `{timeline, 0.95, "Direct request
for timeline editor"}`, whatever the keyword matches and current mode; a
message containing "switch to storyboard" or "storyboard editor" classifies
as `{storyboard, 0.95, "Direct request for storyboard editor"}` only when
it contains neither timeline override phrase (the `else if` gives the
timeline phrases priority). -/
theorem classify_override_rules (userMessage currentMode : String) :
    ((jsIncludes (lowerStr userMessage) "switch to timeline"
        || jsIncludes (lowerStr userMessage) "timeline editor") = true →
      classify userMessage currentMode
        = ⟨some "timeline", 0.95, "Direct request for timeline editor"⟩) ∧
    ((jsIncludes (lowerStr userMessage) "switch to timeline"
        || jsIncludes (lowerStr userMessage) "timeline editor") = false →
     (jsIncludes (lowerStr userMessage) "switch to storyboard"
        || jsIncludes (lowerStr userMessage) "storyboard editor") = true →
      classify userMessage currentMode
        = ⟨some "storyboard", 0.95, "Direct request for storyboard editor"⟩) := by
  constructor
  · intro h
    simp [classify, applyOverrides, h]
  · intro h1 h2
    simp [classify, applyOverrides, h1, h2]

/-- Witness for the amended C5 theorem, at one message per override rule. -/
theorem classify_override_rules_witness :
    classify "I want to switch to timeline editor" "chat"
      = ⟨some "timeline", 0.95, "Direct request for timeline editor"⟩ ∧
    classify "open the storyboard editor please" "chat"
      = ⟨some "storyboard", 0.95, "Direct request for storyboard editor"⟩ :=
  ⟨(classify_override_rules "I want to switch to timeline editor" "chat").1 (by decide),
   (classify_override_rules "open the storyboard editor please" "chat").2 (by decide) (by decide)⟩

/-! ## C7: usage percentages stay in [0, 100] -/

/-- One `learnUserBehavior` call with a nonnegative duration preserves the
[0, 100] bounds on every stored usage percentage. -/
theorem learnUserBehavior_preserves_bounds (mem : UserMemory)
    (action feature : String) (d : ℚ) (uctx : UsageContext) (now : ℕ)
    (hmem : usageInBounds mem) (hd : 0 ≤ d) :
    usageInBounds (learnUserBehavior action feature d uctx now mem).2 := by
  intro p hp
  simp only [learnUserBehavior] at hp
  rcases mem_alistSet _ _ _ p hp with hnew | hold
  · have hcu : 0 ≤ jsOrDefault (alistLookup mem.preferences.usage (feature ++ "UsagePercent")) 33 ∧
        jsOrDefault (alistLookup mem.preferences.usage (feature ++ "UsagePercent")) 33 ≤ 100 := by
      rcases hv : alistLookup mem.preferences.usage (feature ++ "UsagePercent") with _ | v
      · simp [jsOrDefault]; norm_num
      · have hb := hmem _ (alistLookup_mem _ _ _ hv)
        by_cases hz : v = 0
        · simp [jsOrDefault, hz]; norm_num
        · simpa [jsOrDefault, hz] using hb
    have hw : 0 ≤ min (d / 60000) 1 ∧ min (d / 60000) 1 ≤ 1 :=
      ⟨le_min (by positivity) (by norm_num), min_le_right _ _⟩
    rw [hnew]
    constructor
    · have h0 : (0 : ℚ) ≤ jsOrDefault (alistLookup mem.preferences.usage (feature ++ "UsagePercent")) 33 * 0.9
          + min (d / 60000) 1 * 10 := by nlinarith [hcu.1, hw.1]
      exact le_min h0 (by norm_num)
    · exact min_le_right _ _
  · exact hmem p hold

/-- C7: starting from any profile whose stored usage percentages all lie in
[0, 100], after any finite sequence of `learnUserBehavior` calls with
nonnegative durations, every stored usage percentage still lies in
[0, 100]. -/
theorem applyLearnCalls_usage_bounded (mem : UserMemory) (calls : List LearnCall)
    (hmem : usageInBounds mem) (hcalls : ∀ c ∈ calls, 0 ≤ c.durationMs) :
    usageInBounds (applyLearnCalls calls mem) := by
  induction calls generalizing mem with
  | nil => simpa [applyLearnCalls] using hmem
  | cons c rest ih =>
    rw [applyLearnCalls]
    exact ih _
      (learnUserBehavior_preserves_bounds mem c.action c.feature c.durationMs c.uctx c.now
        hmem (hcalls c (List.mem_cons_self _ _)))
      (fun c₁ h₁ => hcalls c₁ (List.mem_cons_of_mem _ h₁))

/-- Witness for C7: two concrete calls (one of them longer than a minute)
against the initial profile. -/
theorem applyLearnCalls_usage_bounded_witness :
    usageInBounds (applyLearnCalls
      [⟨"edit", "chat", 5000, ⟨none, none, none⟩, 1⟩,
       ⟨"plan", "storyboard", 120000, ⟨none, none, none⟩, 2⟩] initialUserMemory) :=
  applyLearnCalls_usage_bounded initialUserMemory
    [⟨"edit", "chat", 5000, ⟨none, none, none⟩, 1⟩,
     ⟨"plan", "storyboard", 120000, ⟨none, none, none⟩, 2⟩]
    (by decide) (by decide)

/-! ## C4: keyword scoring -/

theorem applyOverrides_no_phrase (messageL : String) (prior : ClassificationResult)
    (h : hasOverridePhrase messageL = false) :
    applyOverrides messageL prior = prior := by
  simp only [hasOverridePhrase, Bool.or_eq_false_iff] at h
  obtain ⟨⟨⟨h1, h2⟩, h3⟩, h4⟩ := h
  simp [applyOverrides, h1, h2, h3, h4]

theorem keywordClassify_spec (messageL currentMode : String) :
    ((keywordClassify messageL currentMode).suggestion = some "storyboard" ↔
      currentMode ≠ "storyboard" ∧
        min ((storyboardMatchCount messageL : ℚ) * 0.3) 0.9 >
          min ((timelineMatchCount messageL : ℚ) * 0.3) 0.9) ∧
    ((keywordClassify messageL currentMode).suggestion = some "timeline" ↔
      0 < timelineMatchCount messageL ∧ currentMode ≠ "timeline" ∧
        ¬(currentMode ≠ "storyboard" ∧
          min ((storyboardMatchCount messageL : ℚ) * 0.3) 0.9 >
            min ((timelineMatchCount messageL : ℚ) * 0.3) 0.9)) ∧
    ((keywordClassify messageL currentMode).suggestion = some "timeline" →
      (keywordClassify messageL currentMode).confidence =
        min ((timelineMatchCount messageL : ℚ) * 0.3) 0.9) ∧
    ((keywordClassify messageL currentMode).suggestion = some "storyboard" →
      (keywordClassify messageL currentMode).confidence =
        min ((storyboardMatchCount messageL : ℚ) * 0.3) 0.9) := by
  simp only [keywordClassify, timelineMatchCount, storyboardMatchCount]
  split_ifs with h1 h2 h3 h4 h5 h6 h7 h8
  · exact ⟨iff_of_true rfl ⟨h4.2, h4.1⟩,
      iff_of_false (by simp) (fun hr => hr.2.2 ⟨h4.2, h4.1⟩),
      fun hc => absurd hc (by simp), fun _ => rfl⟩
  · exact ⟨iff_of_false (by simp) (fun hr => h4 ⟨hr.2, hr.1⟩),
      iff_of_true rfl ⟨h2, h3, fun hc => h4 ⟨hc.2, hc.1⟩⟩,
      fun _ => rfl, fun hc => absurd hc (by simp)⟩
  · exact ⟨iff_of_true rfl ⟨h5.2, h5.1⟩,
      iff_of_false (by simp) (fun hr => h3 hr.2.1),
      fun hc => absurd hc (by simp), fun _ => rfl⟩
  · exact ⟨iff_of_false (by simp) (fun hr => h5 ⟨hr.2, hr.1⟩),
      iff_of_false (by simp) (fun hr => h3 hr.2.1),
      fun hc => absurd hc (by simp), fun hc => absurd hc (by simp)⟩
  · have hz : (timelineKeywords.filter (fun k => jsIncludes messageL k)).length = 0 := by omega
    have hct0 : min (((timelineKeywords.filter (fun k => jsIncludes messageL k)).length : ℚ) * 0.3) 0.9 = 0 := by
      rw [hz]; norm_num [min_def]
    refine ⟨iff_of_true rfl ⟨h6.2, ?_⟩,
      iff_of_false (by simp) (fun hr => h2 hr.1),
      fun hc => absurd hc (by simp), fun _ => rfl⟩
    rw [hct0]; exact h6.1
  · have hz : (timelineKeywords.filter (fun k => jsIncludes messageL k)).length = 0 := by omega
    have hct0 : min (((timelineKeywords.filter (fun k => jsIncludes messageL k)).length : ℚ) * 0.3) 0.9 = 0 := by
      rw [hz]; norm_num [min_def]
    refine ⟨iff_of_false (by simp) (fun hr => h6 ⟨?_, hr.1⟩),
      iff_of_false (by simp) (fun hr => h2 hr.1),
      fun hc => absurd hc (by simp), fun hc => absurd hc (by simp)⟩
    rw [← hct0]; exact hr.2
  · have hz : (storyboardKeywords.filter (fun k => jsIncludes messageL k)).length = 0 := by omega
    have hcs0 : min (((storyboardKeywords.filter (fun k => jsIncludes messageL k)).length : ℚ) * 0.3) 0.9 = 0 := by
      rw [hz]; norm_num [min_def]
    have hctnn : (0 : ℚ) ≤ min (((timelineKeywords.filter (fun k => jsIncludes messageL k)).length : ℚ) * 0.3) 0.9 :=
      le_min (by positivity) (by norm_num)
    refine ⟨iff_of_false (by simp) (fun hr => ?_),
      iff_of_true rfl ⟨h7, h8, fun hc => ?_⟩,
      fun _ => rfl, fun hc => absurd hc (by simp)⟩
    · rw [hcs0] at hr
      exact absurd hr.2 (not_lt.mpr hctnn)
    · rw [hcs0] at hc
      exact absurd hc.2 (not_lt.mpr hctnn)
  · have hz : (storyboardKeywords.filter (fun k => jsIncludes messageL k)).length = 0 := by omega
    have hcs0 : min (((storyboardKeywords.filter (fun k => jsIncludes messageL k)).length : ℚ) * 0.3) 0.9 = 0 := by
      rw [hz]; norm_num [min_def]
    have hctnn : (0 : ℚ) ≤ min (((timelineKeywords.filter (fun k => jsIncludes messageL k)).length : ℚ) * 0.3) 0.9 :=
      le_min (by positivity) (by norm_num)
    refine ⟨iff_of_false (by simp) (fun hr => ?_),
      iff_of_false (by simp) (fun hr => h8 hr.2.1),
      fun hc => absurd hc (by simp), fun hc => absurd hc (by simp)⟩
    rw [hcs0] at hr
    exact absurd hr.2 (not_lt.mpr hctnn)
  · have hz : (storyboardKeywords.filter (fun k => jsIncludes messageL k)).length = 0 := by omega
    have hcs0 : min (((storyboardKeywords.filter (fun k => jsIncludes messageL k)).length : ℚ) * 0.3) 0.9 = 0 := by
      rw [hz]; norm_num [min_def]
    have hctnn : (0 : ℚ) ≤ min (((timelineKeywords.filter (fun k => jsIncludes messageL k)).length : ℚ) * 0.3) 0.9 :=
      le_min (by positivity) (by norm_num)
    refine ⟨iff_of_false (by simp) (fun hr => ?_),
      iff_of_false (by simp) (fun hr => h7 hr.1),
      fun hc => absurd hc (by simp), fun hc => absurd hc (by simp)⟩
    rw [hcs0] at hr
    exact absurd hr.2 (not_lt.mpr hctnn)

/-- C4: on any message free of override phrases, the classifier suggests
storyboard exactly when the current mode is not storyboard and the
storyboard confidence `min(matches_sb * 0.3, 0.9)` strictly exceeds the
timeline confidence `min(matches_t * 0.3, 0.9)`; it suggests timeline
exactly when there is a timeline match, the current mode is not timeline,
and storyboard does not win; the returned confidence is the corresponding
`min(matches * 0.3, 0.9)`.  In particular
`classify("let's talk about our story flow and scene composition", "chat")`
suggests storyboard with confidence 0.9. -/
theorem classify_keyword_scoring :
    (∀ userMessage currentMode : String,
      hasOverridePhrase (lowerStr userMessage) = false →
      (((classify userMessage currentMode).suggestion = some "storyboard" ↔
        currentMode ≠ "storyboard" ∧
          min ((storyboardMatchCount (lowerStr userMessage) : ℚ) * 0.3) 0.9 >
            min ((timelineMatchCount (lowerStr userMessage) : ℚ) * 0.3) 0.9) ∧
       ((classify userMessage currentMode).suggestion = some "timeline" ↔
        0 < timelineMatchCount (lowerStr userMessage) ∧ currentMode ≠ "timeline" ∧
          ¬(currentMode ≠ "storyboard" ∧
            min ((storyboardMatchCount (lowerStr userMessage) : ℚ) * 0.3) 0.9 >
              min ((timelineMatchCount (lowerStr userMessage) : ℚ) * 0.3) 0.9)) ∧
       ((classify userMessage currentMode).suggestion = some "timeline" →
        (classify userMessage currentMode).confidence =
          min ((timelineMatchCount (lowerStr userMessage) : ℚ) * 0.3) 0.9) ∧
       ((classify userMessage currentMode).suggestion = some "storyboard" →
        (classify userMessage currentMode).confidence =
          min ((storyboardMatchCount (lowerStr userMessage) : ℚ) * 0.3) 0.9))) ∧
    (classify "let's talk about our story flow and scene composition" "chat").suggestion
      = some "storyboard" ∧
    (classify "let's talk about our story flow and scene composition" "chat").confidence = 0.9 := by
  refine ⟨fun userMessage currentMode h => ?_, ?_⟩
  · rw [classify, applyOverrides_no_phrase _ _ h]
    exact keywordClassify_spec (lowerStr userMessage) currentMode
  · have h1 : storyboardKeywords.filter (fun k =>
        jsIncludes (lowerStr "let's talk about our story flow and scene composition") k)
        = ["scene", "story", "flow", "composition", "story flow"] := by decide
    have h2 : timelineKeywords.filter (fun k =>
        jsIncludes (lowerStr "let's talk about our story flow and scene composition") k) = [] := by decide
    have h3 : jsIncludes (lowerStr "let's talk about our story flow and scene composition")
        "switch to timeline" = false := by decide
    have h4 : jsIncludes (lowerStr "let's talk about our story flow and scene composition")
        "timeline editor" = false := by decide
    have h5 : jsIncludes (lowerStr "let's talk about our story flow and scene composition")
        "switch to storyboard" = false := by decide
    have h6 : jsIncludes (lowerStr "let's talk about our story flow and scene composition")
        "storyboard editor" = false := by decide
    rw [classify, applyOverrides, keywordClassify, h1, h2, h3, h4, h5, h6]
    norm_num
    rw [if_neg (show ¬("chat" = "storyboard") by decide)]
    exact ⟨rfl, rfl⟩

/-- Witness for C4 at the storyboard example message and mode `chat`
(the override-free hypothesis discharged by computation). -/
theorem classify_keyword_scoring_witness :
    ((classify "let's talk about our story flow and scene composition" "chat").suggestion
        = some "storyboard" ↔
      "chat" ≠ "storyboard" ∧
        min ((storyboardMatchCount (lowerStr "let's talk about our story flow and scene composition") : ℚ) * 0.3) 0.9 >
          min ((timelineMatchCount (lowerStr "let's talk about our story flow and scene composition") : ℚ) * 0.3) 0.9) ∧
    ((classify "let's talk about our story flow and scene composition" "chat").suggestion
        = some "timeline" ↔
      0 < timelineMatchCount (lowerStr "let's talk about our story flow and scene composition") ∧
        "chat" ≠ "timeline" ∧
        ¬("chat" ≠ "storyboard" ∧
          min ((storyboardMatchCount (lowerStr "let's talk about our story flow and scene composition") : ℚ) * 0.3) 0.9 >
            min ((timelineMatchCount (lowerStr "let's talk about our story flow and scene composition") : ℚ) * 0.3) 0.9)) ∧
    ((classify "let's talk about our story flow and scene composition" "chat").suggestion
        = some "timeline" →
      (classify "let's talk about our story flow and scene composition" "chat").confidence =
        min ((timelineMatchCount (lowerStr "let's talk about our story flow and scene composition") : ℚ) * 0.3) 0.9) ∧
    ((classify "let's talk about our story flow and scene composition" "chat").suggestion
        = some "storyboard" →
      (classify "let's talk about our story flow and scene composition" "chat").confidence =
        min ((storyboardMatchCount (lowerStr "let's talk about our story flow and scene composition") : ℚ) * 0.3) 0.9) :=
  classify_keyword_scoring.1 "let's talk about our story flow and scene composition" "chat" (by decide)

/-! ## C1: lemmas about the grouped transition map -/

theorem predictStep_eq (recentCount : ℕ) (timeSpent : ℚ) (currentMode : String)
    (best : Prediction) (kv : String × TransitionAcc) :
    predictStep recentCount timeSpent currentMode best kv =
      if (splitArrow kv.1).headD "" = currentMode then
        pickStep recentCount timeSpent best kv
      else best := rfl

theorem foldl_predictStep_eq_matching (recentCount : ℕ) (timeSpent : ℚ)
    (currentMode : String) (l : List (String × TransitionAcc)) (init : Prediction) :
    l.foldl (predictStep recentCount timeSpent currentMode) init
      = (matchingEntries currentMode l).foldl (pickStep recentCount timeSpent) init := by
  induction l generalizing init with
  | nil => rfl
  | cons kv rest ih =>
    by_cases hf : (splitArrow kv.1).headD "" = currentMode
    · have hf₁ : (splitArrow kv.1).head?.getD "" = currentMode := by simpa using hf
      have hm : matchingEntries currentMode (kv :: rest)
          = kv :: matchingEntries currentMode rest := by
        simp [matchingEntries, List.filter_cons, hf₁]
      rw [List.foldl_cons, predictStep_eq, if_pos hf, hm, List.foldl_cons]
      exact ih _
    · have hf₁ : ¬(splitArrow kv.1).head?.getD "" = currentMode := by simpa using hf
      have hm : matchingEntries currentMode (kv :: rest) = matchingEntries currentMode rest := by
        simp [matchingEntries, List.filter_cons, hf₁]
      rw [List.foldl_cons, predictStep_eq, if_neg hf, hm]
      exact ih init

theorem predictNextFeature_eq_pickFold (currentMode : String) (timeSpent : ℚ)
    (patterns : List TransitionEvent) :
    predictNextFeature currentMode timeSpent patterns
      = (matchingEntries currentMode
            (buildTransitionMap (patterns.drop (patterns.length - 20)))).foldl
          (pickStep (patterns.drop (patterns.length - 20)).length timeSpent)
          ⟨"chat", 0, "default"⟩ := by
  rw [predictNextFeature]
  exact foldl_predictStep_eq_matching _ _ _ _ _

theorem mem_mapUpdate_count (m : List (String × TransitionAcc)) (key : String) (d : ℚ)
    (hm : ∀ kv ∈ m, 1 ≤ kv.2.count) :
    ∀ kv ∈ mapUpdate m key d, 1 ≤ kv.2.count := by
  induction m with
  | nil =>
    intro kv hkv
    simp only [mapUpdate, List.mem_singleton] at hkv
    simp [hkv]
  | cons q rest ih =>
    obtain ⟨k₁, acc⟩ := q
    intro kv hkv
    by_cases h : k₁ = key
    · simp only [mapUpdate, if_pos h] at hkv
      rcases List.mem_cons.mp hkv with hkv | hkv
      · simp [hkv]
      · exact hm kv (List.mem_cons_of_mem _ hkv)
    · simp only [mapUpdate, if_neg h] at hkv
      rcases List.mem_cons.mp hkv with hkv | hkv
      · exact hkv ▸ hm (k₁, acc) (List.mem_cons_self _ _)
      · exact ih (fun kv₁ h₁ => hm kv₁ (List.mem_cons_of_mem _ h₁)) kv hkv

theorem buildTransitionMap_count_aux (l : List TransitionEvent)
    (m₀ : List (String × TransitionAcc)) (hm : ∀ kv ∈ m₀, 1 ≤ kv.2.count) :
    ∀ kv ∈ l.foldl (fun m p => mapUpdate m (p.«from» ++ "->" ++ p.«to») p.duration) m₀,
      1 ≤ kv.2.count := by
  induction l generalizing m₀ with
  | nil => simpa using hm
  | cons p rest ih =>
    rw [List.foldl_cons]
    exact ih _ (mem_mapUpdate_count _ _ _ hm)

theorem buildTransitionMap_count (l : List TransitionEvent) :
    ∀ kv ∈ buildTransitionMap l, 1 ≤ kv.2.count :=
  buildTransitionMap_count_aux l [] (by simp)

theorem totalCount_mapUpdate (m : List (String × TransitionAcc)) (key : String) (d : ℚ) :
    totalCount (mapUpdate m key d) = totalCount m + 1 := by
  induction m with
  | nil => simp [mapUpdate, totalCount]
  | cons q rest ih =>
    obtain ⟨k₁, acc⟩ := q
    by_cases h : k₁ = key
    · simp [mapUpdate, if_pos h, totalCount]
      omega
    · simp only [mapUpdate, if_neg h]
      simp only [totalCount, List.map_cons, List.sum_cons] at *
      omega

theorem totalCount_buildTransitionMap_aux (l : List TransitionEvent)
    (m₀ : List (String × TransitionAcc)) :
    totalCount (l.foldl (fun m p => mapUpdate m (p.«from» ++ "->" ++ p.«to») p.duration) m₀)
      = totalCount m₀ + l.length := by
  induction l generalizing m₀ with
  | nil => simp
  | cons p rest ih =>
    rw [List.foldl_cons, ih, totalCount_mapUpdate]
    simp
    omega

theorem totalCount_buildTransitionMap (l : List TransitionEvent) :
    totalCount (buildTransitionMap l) = l.length := by
  rw [buildTransitionMap, totalCount_buildTransitionMap_aux]
  simp [totalCount]

theorem count_le_totalCount (m : List (String × TransitionAcc)) :
    ∀ kv ∈ m, kv.2.count ≤ totalCount m := by
  induction m with
  | nil => simp
  | cons q rest ih =>
    intro kv hkv
    rcases List.mem_cons.mp hkv with hkv | hkv
    · simp [hkv, totalCount]
    · have := ih kv hkv
      simp only [totalCount, List.map_cons, List.sum_cons] at *
      omega

theorem pairwise_count_sum (m : List (String × TransitionAcc)) :
    m.Pairwise (fun a b => a.2.count + b.2.count ≤ totalCount m) := by
  induction m with
  | nil => simp
  | cons q rest ih =>
    rw [List.pairwise_cons]
    constructor
    · intro b hb
      have := count_le_totalCount rest b hb
      simp only [totalCount, List.map_cons, List.sum_cons]
      simp only [totalCount] at this
      omega
    · refine ih.imp (fun h => ?_)
      simp only [totalCount, List.map_cons, List.sum_cons]
      simp only [totalCount] at h
      omega

theorem entryScore_pos (N : ℕ) (t : ℚ) (acc : TransitionAcc)
    (hc : 1 ≤ acc.count) (hN : 0 < N) : 0 < entryScore N t acc := by
  rw [entryScore]
  have h1 : (0 : ℚ) < (acc.count : ℚ) := by exact_mod_cast Nat.lt_of_lt_of_le Nat.zero_lt_one hc
  have h2 : (0 : ℚ) < (N : ℚ) := by exact_mod_cast hN
  have h3 : (0 : ℚ) < (if t > acc.avgDuration then (1.2 : ℚ) else 0.8) := by
    split_ifs <;> norm_num
  exact mul_pos (div_pos h1 h2) h3

theorem entryScore_big (N : ℕ) (t : ℚ) (acc : TransitionAcc)
    (h : 1 < entryScore N t acc) : 5 * N < 6 * acc.count := by
  by_cases hN : N = 0
  · rw [entryScore, hN] at h
    norm_num at h
  · have hNpos : (0 : ℚ) < (N : ℚ) := by exact_mod_cast Nat.pos_of_ne_zero hN
    have hw : (if t > acc.avgDuration then (1.2 : ℚ) else 0.8) ≤ 6 / 5 := by
      split_ifs <;> norm_num
    have hnn : (0 : ℚ) ≤ (acc.count : ℚ) / (N : ℚ) := by positivity
    have h2 : 1 < ((acc.count : ℚ) / (N : ℚ)) * (6 / 5) :=
      lt_of_lt_of_le h (mul_le_mul_of_nonneg_left hw hnn)
    have h3 : 5 * (N : ℚ) < 6 * (acc.count : ℚ) := by
      rw [div_mul_eq_mul_div, lt_div_iff₀ hNpos] at h2
      linarith
    exact_mod_cast h3

theorem matching_pairwise_big (currentMode : String) (t : ℚ)
    (recent : List TransitionEvent) :
    (matchingEntries currentMode (buildTransitionMap recent)).Pairwise
      (fun a b => ¬(1 < entryScore recent.length t a.2 ∧
        1 < entryScore recent.length t b.2)) := by
  have h1 : (buildTransitionMap recent).Pairwise
      (fun a b => a.2.count + b.2.count ≤ recent.length) := by
    have h := pairwise_count_sum (buildTransitionMap recent)
    rwa [totalCount_buildTransitionMap] at h
  have h2 := h1.filter (fun kv => decide ((splitArrow kv.1).headD "" = currentMode))
  refine h2.imp ?_
  intro a b hab hcontra
  obtain ⟨ha, hb⟩ := hcontra
  have h3 := entryScore_big _ _ _ ha
  have h4 := entryScore_big _ _ _ hb
  omega

theorem get_append_left_aux {α : Type} (l : List α) (c : α) (j : ℕ)
    (hj : j < l.length) (hj₁ : j < (l ++ [c]).length) :
    (l ++ [c]).get ⟨j, hj₁⟩ = l.get ⟨j, hj⟩ := by
  simp [List.get_eq_getElem, List.getElem_append_left hj]

theorem get_append_last_aux {α : Type} (l : List α) (c : α)
    (h : l.length < (l ++ [c]).length) : (l ++ [c]).get ⟨l.length, h⟩ = c := by
  simp [List.get_eq_getElem]

/-- The strict-improvement fold of `predictNextFeature` computes the
first-encountered maximum of the raw scores (with confidence clipped at 1),
provided every candidate score is positive and at most one exceeds 1 —
facts established below from the grouped counts. -/
theorem pickFold_spec (N : ℕ) (t : ℚ) (cands : List (String × TransitionAcc))
    (hpos : ∀ kv ∈ cands, 0 < entryScore N t kv.2)
    (hbig : cands.Pairwise (fun a b => ¬(1 < entryScore N t a.2 ∧ 1 < entryScore N t b.2))) :
    (cands = [] ∧ cands.foldl (pickStep N t) ⟨"chat", 0, "default"⟩ = ⟨"chat", 0, "default"⟩) ∨
    (∃ i, ∃ hi : i < cands.length,
      cands.foldl (pickStep N t) ⟨"chat", 0, "default"⟩
        = entryPrediction N t (cands.get ⟨i, hi⟩) ∧
      (∀ j, ∀ hj : j < cands.length,
        entryScore N t (cands.get ⟨j, hj⟩).2 ≤ entryScore N t (cands.get ⟨i, hi⟩).2) ∧
      (∀ j, ∀ hj : j < cands.length, j < i →
        entryScore N t (cands.get ⟨j, hj⟩).2 < entryScore N t (cands.get ⟨i, hi⟩).2)) := by
  revert hpos hbig
  induction cands using List.reverseRecOn with
  | nil => exact fun _ _ => Or.inl ⟨rfl, rfl⟩
  | append_singleton l c ih =>
    intro hpos hbig
    have hposl : ∀ kv ∈ l, 0 < entryScore N t kv.2 :=
      fun kv h => hpos kv (List.mem_append_left _ h)
    have hbig₁ := List.pairwise_append.mp hbig
    have hRc : ∀ a ∈ l, ¬(1 < entryScore N t a.2 ∧ 1 < entryScore N t c.2) :=
      fun a ha => hbig₁.2.2 a ha c (by simp)
    have hfoldc : (l ++ [c]).foldl (pickStep N t) ⟨"chat", 0, "default"⟩
        = pickStep N t (l.foldl (pickStep N t) ⟨"chat", 0, "default"⟩) c := by
      rw [List.foldl_append, List.foldl_cons, List.foldl_nil]
    rcases ih hposl hbig₁.1 with ⟨hl, hf⟩ | ⟨i, hi, hfold, hmax, hfirst⟩
    · subst hl
      have hc : 0 < entryScore N t c.2 := hpos c (by simp)
      refine Or.inr ⟨0, by simp, ?_, ?_, ?_⟩
      · simp only [List.nil_append, List.foldl_cons, List.foldl_nil]
        rw [pickStep, if_pos (show entryScore N t c.2 >
          (⟨"chat", 0, "default"⟩ : Prediction).confidence from hc)]
        rfl
      · intro j hj
        simp only [List.nil_append, List.length_singleton] at hj
        have hj0 : j = 0 := by omega
        subst hj0
        exact le_refl _
      · intro j hj hjlt
        exact absurd hjlt (by omega)
    · have hii : i < (l ++ [c]).length := by
        simp only [List.length_append, List.length_singleton]
        omega
      by_cases hle : entryScore N t (l.get ⟨i, hi⟩).2 ≤ 1
      · have hconf : (entryPrediction N t (l.get ⟨i, hi⟩)).confidence
            = entryScore N t (l.get ⟨i, hi⟩).2 := min_eq_left hle
        by_cases hgt : entryScore N t c.2 > entryScore N t (l.get ⟨i, hi⟩).2
        · have hlen : l.length < (l ++ [c]).length := by
            simp only [List.length_append, List.length_singleton]
            omega
          refine Or.inr ⟨l.length, hlen, ?_, ?_, ?_⟩
          · rw [hfoldc, hfold, pickStep, hconf, if_pos hgt, get_append_last_aux]
          · intro j hj
            rw [get_append_last_aux]
            rcases Nat.lt_or_ge j l.length with hjl | hjl
            · rw [get_append_left_aux l c j hjl hj]
              exact le_of_lt (lt_of_le_of_lt (hmax j hjl) hgt)
            · have hje : j = l.length := by
                simp only [List.length_append, List.length_singleton] at hj
                omega
              subst hje
              rw [get_append_last_aux]
          · intro j hj hjlt
            rw [get_append_last_aux, get_append_left_aux l c j hjlt hj]
            exact lt_of_le_of_lt (hmax j hjlt) hgt
        · refine Or.inr ⟨i, hii, ?_, ?_, ?_⟩
          · rw [hfoldc, hfold, pickStep, hconf, if_neg hgt, get_append_left_aux l c i hi hii]
          · intro j hj
            rw [get_append_left_aux l c i hi hii]
            rcases Nat.lt_or_ge j l.length with hjl | hjl
            · rw [get_append_left_aux l c j hjl hj]
              exact hmax j hjl
            · have hje : j = l.length := by
                simp only [List.length_append, List.length_singleton] at hj
                omega
              subst hje
              rw [get_append_last_aux]
              exact not_lt.mp hgt
          · intro j hj hjlt
            rw [get_append_left_aux l c i hi hii]
            have hjl : j < l.length := lt_trans hjlt hi
            rw [get_append_left_aux l c j hjl hj]
            exact hfirst j hjl hjlt
      · have hsi : 1 < entryScore N t (l.get ⟨i, hi⟩).2 := not_le.mp hle
        have hcle : ¬(1 < entryScore N t c.2) :=
          fun hc1 => hRc _ (l.get_mem i hi) ⟨hsi, hc1⟩
        have hconf1 : (entryPrediction N t (l.get ⟨i, hi⟩)).confidence = 1 :=
          min_eq_right (le_of_lt hsi)
        have hngt : ¬(entryScore N t c.2 > (entryPrediction N t (l.get ⟨i, hi⟩)).confidence) := by
          rw [hconf1]
          exact hcle
        refine Or.inr ⟨i, hii, ?_, ?_, ?_⟩
        · rw [hfoldc, hfold, pickStep, if_neg hngt, get_append_left_aux l c i hi hii]
        · intro j hj
          rw [get_append_left_aux l c i hi hii]
          rcases Nat.lt_or_ge j l.length with hjl | hjl
          · rw [get_append_left_aux l c j hjl hj]
            exact hmax j hjl
          · have hje : j = l.length := by
              simp only [List.length_append, List.length_singleton] at hj
              omega
            subst hje
            rw [get_append_last_aux]
            exact le_trans (not_lt.mp hcle) (le_of_lt hsi)
        · intro j hj hjlt
          rw [get_append_left_aux l c i hi hii]
          have hjl : j < l.length := lt_trans hjlt hi
          rw [get_append_left_aux l c j hjl hj]
          exact hfirst j hjl hjlt

theorem predictNextFeature_window (currentMode : String) (timeInModeMs : ℚ)
    (log : List TransitionEvent) :
    predictNextFeature currentMode timeInModeMs log
      = predictNextFeature currentMode timeInModeMs (log.drop (log.length - 20)) := by
  have h1 : (log.drop (log.length - 20)).length - 20 = 0 := by
    rw [List.length_drop]
    omega
  rw [predictNextFeature, predictNextFeature, h1, List.drop_zero]

theorem matching_pos (currentMode : String) (t : ℚ) (recent : List TransitionEvent)
    (hN : 0 < recent.length) :
    ∀ kv ∈ matchingEntries currentMode (buildTransitionMap recent),
      0 < entryScore recent.length t kv.2 := by
  intro kv hkv
  have hmem : kv ∈ buildTransitionMap recent := List.mem_of_mem_filter hkv
  exact entryScore_pos _ _ _ (buildTransitionMap_count recent kv hmem) hN

theorem recent_ne_nil_of_matching (currentMode : String) (recent : List TransitionEvent)
    (h : matchingEntries currentMode (buildTransitionMap recent) ≠ []) :
    0 < recent.length := by
  rcases recent with _ | ⟨e, rest⟩
  · exact absurd rfl h
  · simp

/-- C1: `predictNextFeature` (i) depends only on the most recent 20 log
entries; (ii) groups them by `from->to` key with the accumulators
`count` / `avgDuration = (avgDuration + duration) / 2` (the definitions of
`buildTransitionMap` and `mapUpdate`), scores the pairs whose `from` equals
the current mode as `(count / recentCount) * (1.2 or 0.8)`
(`entryScore`), and returns the target of the first-encountered
highest-raw-scoring pair with confidence `min(score, 1)`
(`entryPrediction`), defaulting to `{chat, 0, "default"}` when no pair
matches; (iii) on three identical `chat→timeline` 5000 ms entries with
6000 ms in mode it selects `timeline` with confidence clipped to 1. -/
theorem predictNextFeature_correct :
    (∀ (currentMode : String) (timeInModeMs : ℚ) (log : List TransitionEvent),
      predictNextFeature currentMode timeInModeMs log
        = predictNextFeature currentMode timeInModeMs (log.drop (log.length - 20))) ∧
    (∀ (currentMode : String) (timeInModeMs : ℚ) (log : List TransitionEvent),
      (matchingEntries currentMode (buildTransitionMap (log.drop (log.length - 20))) = [] →
        predictNextFeature currentMode timeInModeMs log = ⟨"chat", 0, "default"⟩) ∧
      (matchingEntries currentMode (buildTransitionMap (log.drop (log.length - 20))) ≠ [] →
        ∃ i, ∃ hi : i < (matchingEntries currentMode
            (buildTransitionMap (log.drop (log.length - 20)))).length,
          predictNextFeature currentMode timeInModeMs log
            = entryPrediction (log.drop (log.length - 20)).length timeInModeMs
                ((matchingEntries currentMode
                    (buildTransitionMap (log.drop (log.length - 20)))).get ⟨i, hi⟩) ∧
          (∀ j, ∀ hj : j < (matchingEntries currentMode
              (buildTransitionMap (log.drop (log.length - 20)))).length,
            entryScore (log.drop (log.length - 20)).length timeInModeMs
                ((matchingEntries currentMode
                    (buildTransitionMap (log.drop (log.length - 20)))).get ⟨j, hj⟩).2
              ≤ entryScore (log.drop (log.length - 20)).length timeInModeMs
                ((matchingEntries currentMode
                    (buildTransitionMap (log.drop (log.length - 20)))).get ⟨i, hi⟩).2) ∧
          (∀ j, ∀ hj : j < (matchingEntries currentMode
              (buildTransitionMap (log.drop (log.length - 20)))).length, j < i →
            entryScore (log.drop (log.length - 20)).length timeInModeMs
                ((matchingEntries currentMode
                    (buildTransitionMap (log.drop (log.length - 20)))).get ⟨j, hj⟩).2
              < entryScore (log.drop (log.length - 20)).length timeInModeMs
                ((matchingEntries currentMode
                    (buildTransitionMap (log.drop (log.length - 20)))).get ⟨i, hi⟩).2))) ∧
    (predictNextFeature "chat" 6000
        [⟨"chat", "timeline", 0, 5000, 0, ⟨none, none, none⟩⟩,
         ⟨"chat", "timeline", 0, 5000, 0, ⟨none, none, none⟩⟩,
         ⟨"chat", "timeline", 0, 5000, 0, ⟨none, none, none⟩⟩]).feature = "timeline" ∧
    (predictNextFeature "chat" 6000
        [⟨"chat", "timeline", 0, 5000, 0, ⟨none, none, none⟩⟩,
         ⟨"chat", "timeline", 0, 5000, 0, ⟨none, none, none⟩⟩,
         ⟨"chat", "timeline", 0, 5000, 0, ⟨none, none, none⟩⟩]).confidence = 1 := by
  refine ⟨predictNextFeature_window, fun currentMode timeInModeMs log =>
    ⟨fun hempty => ?_, fun hne => ?_⟩, ?_⟩
  · rw [predictNextFeature_eq_pickFold, hempty]
    rfl
  · have hN := recent_ne_nil_of_matching _ _ hne
    have hpos := matching_pos currentMode timeInModeMs (log.drop (log.length - 20)) hN
    have hbig := matching_pairwise_big currentMode timeInModeMs (log.drop (log.length - 20))
    rcases pickFold_spec _ _ _ hpos hbig with ⟨h0, _⟩ | ⟨i, hi, hfold, hmax, hfirst⟩
    · exact absurd h0 hne
    · exact ⟨i, hi, by rw [predictNextFeature_eq_pickFold]; exact hfold, hmax, hfirst⟩
  · norm_num [predictNextFeature, buildTransitionMap, mapUpdate, predictStep,
      splitArrow, splitArrowAux, jsRound]

/-- Witness for C1: the windowing conjunct at a concrete log, and the
no-matching-pair default at the empty log. -/
theorem predictNextFeature_correct_witness :
    predictNextFeature "storyboard" 7 ([] : List TransitionEvent) = ⟨"chat", 0, "default"⟩ ∧
    predictNextFeature "chat" 6000
        [⟨"chat", "timeline", 0, 5000, 0, ⟨none, none, none⟩⟩,
         ⟨"chat", "timeline", 0, 5000, 0, ⟨none, none, none⟩⟩,
         ⟨"chat", "timeline", 0, 5000, 0, ⟨none, none, none⟩⟩]
      = predictNextFeature "chat" 6000
          (([⟨"chat", "timeline", 0, 5000, 0, ⟨none, none, none⟩⟩,
             ⟨"chat", "timeline", 0, 5000, 0, ⟨none, none, none⟩⟩,
             ⟨"chat", "timeline", 0, 5000, 0, ⟨none, none, none⟩⟩] : List TransitionEvent).drop
            (([⟨"chat", "timeline", 0, 5000, 0, ⟨none, none, none⟩⟩,
               ⟨"chat", "timeline", 0, 5000, 0, ⟨none, none, none⟩⟩,
               ⟨"chat", "timeline", 0, 5000, 0, ⟨none, none, none⟩⟩] : List TransitionEvent).length - 20)) :=
  ⟨(predictNextFeature_correct.2.1 "storyboard" 7 []).1 rfl,
   predictNextFeature_correct.1 "chat" 6000 _⟩

end ClarityAI
